import Mathlib

/-!
Shallow embedding of the reflection / quantum-sampling core of the
SARS-CoV-2-KG repository (Rust crates `limit-quantum` and
`limit-reflection` under
`src/quantum_integration/quantum-limit-graph-v2.4.0/rust/egg/crates`).

Modelling conventions:
* Rust `f32` arithmetic is embedded as exact rational arithmetic (`ℚ`);
  the two transcendental spots (`exp` in `QuantumSampler::anneal`,
  `log2` in entropy computations) are embedded over `ℝ` with `Real.exp`.
* Randomness (`rand::thread_rng`, `Uuid::new_v4`, `chrono::Utc::now`) is
  made explicit: random draws become list parameters, randomly generated
  step confidences become oracle parameters, and random UUIDs /
  timestamps carried by records are omitted because no claim refers to
  them.
* Rust `format!` output strings with `{:.2}` float formatting are
  embedded as plain concatenations without decimal rounding; no claim
  depends on the text of an output message.
-/

namespace SpecProof

/-- Step kinds, from `limit-reflection/src/model.rs` (`enum StepType`). -/
inductive StepType where
  | Query
  | Retrieval
  | Reasoning
  | Validation
  | Synthesis
deriving DecidableEq, Repr, Inhabited

/-- Suggestion kinds, from `model.rs` (`enum SuggestionType`). -/
inductive SuggestionType where
  | IncreaseConfidence
  | FixRecurringError
  | OptimizeRetrieval
  | ImproveReasoning
  | EnhanceValidation
deriving DecidableEq, Repr, Inhabited

/-- One reasoning step, from `model.rs` (`struct ReasoningStep`).
The Rust struct also carries a random UUID `id`, a creation `timestamp`
and a `metadata` map; they are set nondeterministically at creation
(`Uuid::new_v4`, `chrono::Utc::now`) or always empty, and no claim
refers to them, so they are omitted here. -/
structure ReasoningStep where
  step_type : StepType
  input : String
  output : String
  confidence : ℚ
deriving DecidableEq, Repr, Inhabited

/-- Constructor `ReasoningStep::new` (UUID and timestamp omitted, see
`ReasoningStep`). -/
def ReasoningStep.new (step_type : StepType) (input output : String)
    (confidence : ℚ) : ReasoningStep :=
  ⟨step_type, input, output, confidence⟩

/-- An improvement suggestion, from `model.rs` (`struct Suggestion`);
the random UUID `id` is omitted as no claim refers to it. -/
structure Suggestion where
  suggestion_type : SuggestionType
  description : String
  priority : ℚ
deriving DecidableEq, Repr, Inhabited

/-- Meta-cognitive reflection model, from `model.rs`
(`struct ReflectionModel`).  The Rust `id: Uuid` is modelled as a `ℕ`
chosen at creation; `error_patterns: HashMap<String, usize>` is modelled
as an association list without duplicate keys, whose list order stands
for one enumeration order of the hash map. -/
structure ReflectionModel where
  id : ℕ
  reasoning_trace : List ReasoningStep
  confidence_history : List ℚ
  error_patterns : List (String × ℕ)
  improvement_suggestions : List Suggestion
deriving DecidableEq, Repr

/-- `ReflectionModel::new`; the random `Uuid::new_v4()` becomes the
explicit parameter `id`. -/
def ReflectionModel.new (id : ℕ) : ReflectionModel :=
  ⟨id, [], [], [], []⟩

/-- `ReflectionModel::add_step`: push the step's confidence onto the
confidence history and the step onto the reasoning trace. -/
def ReflectionModel.add_step (m : ReflectionModel) (step : ReasoningStep) :
    ReflectionModel :=
  { m with
    confidence_history := m.confidence_history ++ [step.confidence]
    reasoning_trace := m.reasoning_trace ++ [step] }

/-- Helper embedding `*self.error_patterns.entry(error_type).or_insert(0) += 1`
on the association-list model of the hash map: increment the counter of
an existing key, or insert the key with count 1. -/
def bumpEntry : List (String × ℕ) → String → List (String × ℕ)
  | [], label => [(label, 1)]
  | (k, v) :: rest, label =>
    if k = label then (k, v + 1) :: rest else (k, v) :: bumpEntry rest label

/-- `ReflectionModel::record_error`. -/
def ReflectionModel.record_error (m : ReflectionModel) (error_type : String) :
    ReflectionModel :=
  { m with error_patterns := bumpEntry m.error_patterns error_type }

/-- Mean of the three most recent confidence values,
embedding `self.confidence_history.iter().rev().take(3)` followed by
`recent.iter().sum() / recent.len()`. -/
def recentAvg (history : List ℚ) : ℚ :=
  let recent := history.reverse.take 3
  recent.sum / (recent.length : ℚ)

/-- The confidence-trend suggestion pushed by `generate_suggestions`. -/
def increaseConfidenceSuggestion : Suggestion :=
  ⟨SuggestionType.IncreaseConfidence,
   "Recent confidence scores are low. Consider additional validation.",
   8/10⟩

/-- The recurring-error suggestion pushed by `generate_suggestions`
(the Rust `format!` interpolation of label and count is embedded as
plain concatenation). -/
def fixRecurringErrorSuggestion (label : String) (count : ℕ) : Suggestion :=
  ⟨SuggestionType.FixRecurringError,
   "Recurring error: " ++ label ++ ". Occurred " ++ toString count ++ " times.",
   9/10⟩

/-- `ReflectionModel::generate_suggestions`: clear the suggestion list;
if the confidence history has at least 3 entries and the mean of the 3
most recent is below 0.6, push an IncreaseConfidence suggestion; then
push one FixRecurringError suggestion per error label with count > 3. -/
def ReflectionModel.generate_suggestions (m : ReflectionModel) :
    ReflectionModel :=
  let confSuggestions : List Suggestion :=
    if 3 ≤ m.confidence_history.length ∧ recentAvg m.confidence_history < 6/10
    then [increaseConfidenceSuggestion] else []
  let errSuggestions : List Suggestion :=
    (m.error_patterns.filter (fun e => 3 < e.2)).map
      (fun e => fixRecurringErrorSuggestion e.1 e.2)
  { m with improvement_suggestions := confSuggestions ++ errSuggestions }

/-- Insight summary, from `model.rs` (`struct MetaCognitiveInsights`). -/
structure MetaCognitiveInsights where
  total_steps : ℕ
  average_confidence : ℚ
  total_errors : ℕ
  unique_error_types : ℕ
  suggestions_count : ℕ
deriving DecidableEq, Repr, Inhabited

/-- `ReflectionModel::get_insights`. -/
def ReflectionModel.get_insights (m : ReflectionModel) :
    MetaCognitiveInsights :=
  let avg_confidence : ℚ :=
    if m.confidence_history ≠ [] then
      m.confidence_history.sum / (m.confidence_history.length : ℚ)
    else 0
  { total_steps := m.reasoning_trace.length
    average_confidence := avg_confidence
    total_errors := (m.error_patterns.map (fun e => e.2)).sum
    unique_error_types := m.error_patterns.length
    suggestions_count := m.improvement_suggestions.length }

/-- Total number of recorded error occurrences (sum of all counters of
`error_patterns`), as computed by `get_insights` and
`validate_reflection`. -/
def totalErrors (m : ReflectionModel) : ℕ :=
  (m.error_patterns.map (fun e => e.2)).sum

/-- Governance rules, from `limit-reflection/src/govern.rs`
(`struct ReflectionRules`). -/
structure ReflectionRules where
  min_average_confidence : ℚ
  max_error_rate : ℚ
  min_reasoning_steps : ℕ
  min_suggestion_priority : ℚ
  min_quality_score : ℚ
deriving DecidableEq, Repr

/-- The `Default` impl of `ReflectionRules` in `govern.rs`. -/
def ReflectionRules.default : ReflectionRules :=
  ⟨7/10, 2/10, 3, 6/10, 75/100⟩

/-- Validation verdict, from `govern.rs` (`struct ReflectionValidation`). -/
structure ReflectionValidation where
  valid : Bool
  errors : List String
  warnings : List String
  requires_review : Bool
deriving DecidableEq, Repr

/-- The average confidence as computed inside
`ReflectionGovernance::validate_reflection` (0 for an empty history). -/
def avgConfidence (m : ReflectionModel) : ℚ :=
  if m.confidence_history ≠ [] then
    m.confidence_history.sum / (m.confidence_history.length : ℚ)
  else 0

/-- The error rate as computed inside `validate_reflection`
(0 for an empty reasoning trace). -/
def errorRate (m : ReflectionModel) : ℚ :=
  if m.reasoning_trace ≠ [] then
    (totalErrors m : ℚ) / (m.reasoning_trace.length : ℚ)
  else 0

/-- `ReflectionGovernance::validate_reflection` (the governance struct
only carries the rules, so the rules are passed directly; the Rust
`format!` message interpolation of the numeric values is elided from the
message strings). -/
def ReflectionGovernance.validate_reflection (rules : ReflectionRules)
    (m : ReflectionModel) : ReflectionValidation :=
  let avg := avgConfidence m
  let errors : List String :=
    if avg < rules.min_average_confidence
    then ["Average confidence below minimum"] else []
  let warnings : List String :=
    (if errorRate m > rules.max_error_rate
     then ["Error rate exceeds maximum"] else []) ++
    (if m.reasoning_trace.length < rules.min_reasoning_steps
     then ["Reasoning steps below minimum"] else [])
  { valid := errors.isEmpty
    errors := errors
    warnings := warnings
    requires_review := !warnings.isEmpty || decide (avg < 7/10) }

/-- Quality report, from `govern.rs` (`struct QualityReport`). -/
structure QualityReport where
  overall_quality : ℚ
  confidence_score : ℚ
  error_score : ℚ
  completeness_score : ℚ
  meets_standards : Bool
deriving DecidableEq, Repr

/-- `ReflectionGovernance::check_quality`. -/
def ReflectionGovernance.check_quality (rules : ReflectionRules)
    (m : ReflectionModel) : QualityReport :=
  let insights := m.get_insights
  let confidence_score := insights.average_confidence
  let error_score : ℚ :=
    1 - (insights.total_errors : ℚ) / ((insights.total_steps : ℚ) + 1)
  let completeness_score : ℚ :=
    min ((insights.total_steps : ℚ) / (rules.min_reasoning_steps : ℚ)) 1
  let overall_quality := (confidence_score + error_score + completeness_score) / 3
  { overall_quality := overall_quality
    confidence_score := confidence_score
    error_score := error_score
    completeness_score := completeness_score
    meets_standards := decide (overall_quality ≥ rules.min_quality_score) }

/-- Quantum-inspired sampler, from `limit-quantum/src/sampler.rs`
(`struct QuantumSampler`); the temperature is a real number because
`anneal` exponentiates with it. -/
structure QuantumSampler where
  temperature : ℝ
  num_samples : ℕ

/-- One draw of `QuantumSampler::sample`: accumulate the probabilities
in order and return the first index whose running sum reaches `r`
(`none` when no prefix sum does, i.e. the inner `for` loop falls
through without pushing). -/
def selectIndexAux (r cumsum : ℚ) : List ℚ → Option ℕ
  | [] => none
  | p :: ps =>
    if r ≤ cumsum + p then some 0
    else (selectIndexAux r (cumsum + p) ps).map (fun i => i + 1)

/-- `QuantumSampler::sample`: the `num_samples` values drawn from
`thread_rng` become the explicit list `draws` (one entry per loop
iteration); each draw that selects an index contributes it, a draw that
selects none contributes nothing.  The comparisons are exact rational
arithmetic, so `sample` is a plain function of the draws. -/
def QuantumSampler.sample (draws probabilities : List ℚ) : List ℕ :=
  draws.filterMap (fun r => selectIndexAux r 0 probabilities)

/-- `QuantumSampler::anneal`: temperature-scaled softmax.  The Rust code
performs no check on the temperature; `f32::exp` is embedded as
`Real.exp`. -/
noncomputable def QuantumSampler.anneal (s : QuantumSampler)
    (probabilities : List ℝ) : List ℝ :=
  let sum := (probabilities.map (fun p => Real.exp (p / s.temperature))).sum
  probabilities.map (fun p => Real.exp (p / s.temperature) / sum)

/-- Number of whitespace-separated words, embedding Rust
`input.split_whitespace().count()`: the Boolean argument records whether
the scan is currently inside a word. -/
def countWordsAux : List Char → Bool → ℕ
  | [], _ => 0
  | c :: cs, inWord =>
    if c.isWhitespace then countWordsAux cs false
    else (if inWord then 0 else 1) + countWordsAux cs true

/-- Word count of a string (`split_whitespace().count()`). -/
def wordCount (s : String) : ℕ :=
  countWordsAux s.toList false

/-- UTF-8 byte length of a string, embedding Rust `input.len()`. -/
def byteLength (s : String) : ℕ :=
  (s.toList.map Char.utf8Size).sum

/-- The un-normalized 3-entry feature vector built inside
`QuantumReflector::compute_probabilities`: capped length ratio, capped
word-count ratio, and the 0.5 baseline. -/
def featureVector (input : String) : List ℚ :=
  [min ((byteLength input : ℚ) / 100) 1,
   min ((wordCount input : ℚ) / 20) 1,
   1/2]

/-- `QuantumReflector::compute_probabilities`: the feature vector with
every entry divided by 3.0 (the Rust `.map(|p| p / 3.0)`). -/
def QuantumReflector.compute_probabilities (input : String) : List ℚ :=
  (featureVector input).map (fun p => p / 3)

/-- `ReflectionEngine::analyze_complexity`, from
`limit-reflection/src/engine.rs`.  The Rust function wraps the step in
`Ok(..)` but can never fail; the `{:.2}` score formatting in the output
message is elided. -/
def ReflectionEngine.analyze_complexity (query : String) : ReasoningStep :=
  let word_count := wordCount query
  let complexity_score : ℚ := min ((word_count : ℚ) / 50) 1
  ReasoningStep.new StepType.Query query
    ("Query complexity (words: " ++ toString word_count ++ ")")
    (1 - complexity_score * (3/10))

/-- The step produced by `QuantumReflector::reflect` (quantum.rs): a
Validation-kind step for the given input whose confidence is derived
from the entropy of `thread_rng` samples.  That confidence is
nondeterministic, so it enters the embedding as the oracle parameter
`qc`; no claim constrains its value. -/
def quantumReflect (qc : ℚ) (input : String) : ReasoningStep :=
  ReasoningStep.new StepType.Validation input "Quantum reflection" qc

/-- `ReflectionEngine::meta_reason`: a Reasoning-kind step whose
confidence is the mean of the confidences of the given steps (always
called on the two preceding steps of the pass). -/
def ReflectionEngine.meta_reason (steps : List ReasoningStep) : ReasoningStep :=
  let avg := (steps.map (fun s => s.confidence)).sum / (steps.length : ℚ)
  ReasoningStep.new StepType.Reasoning
    (toString steps.length ++ " previous steps") "Meta-reasoning" avg

/-- Result of one reflection pass, from `engine.rs`
(`struct ReflectionResult`). -/
structure ReflectionResult where
  steps : List ReasoningStep
  final_confidence : ℚ
  insights : MetaCognitiveInsights
deriving DecidableEq, Repr, Inhabited

/-- `ReflectionEngine::reflect_on_query`: complexity step, quantum step
(its confidence given by the oracle `qc`), meta step; all three appended
to the model followed by one `generate_suggestions` call.  The Rust
method mutates the engine-owned model behind a lock and returns
`Ok(result)`; it can never fail, so the embedding returns the result
together with the updated model. -/
def ReflectionEngine.reflect_on_query (qc : ℚ) (query : String)
    (m : ReflectionModel) : ReflectionResult × ReflectionModel :=
  let complexity_step := ReflectionEngine.analyze_complexity query
  let quantum_step := quantumReflect qc query
  let meta_step := ReflectionEngine.meta_reason [complexity_step, quantum_step]
  let steps := [complexity_step, quantum_step, meta_step]
  let m2 :=
    (((m.add_step complexity_step).add_step quantum_step).add_step
        meta_step).generate_suggestions
  (⟨steps, meta_step.confidence, m2.get_insights⟩, m2)

/-- Result of deep reflection, from `engine.rs`
(`struct DeepReflectionResult`). -/
structure DeepReflectionResult where
  layers : List ReflectionResult
  final_depth : ℕ
deriving DecidableEq, Repr

/-- The synthetic query fed to the next layer of `deep_reflect`
(the Rust `format!("Reflect on: confidence={:.2}, steps={}", ..)`;
decimal rounding elided). -/
def nextQuery (r : ReflectionResult) : String :=
  "Reflect on: confidence=" ++ toString r.final_confidence ++
    ", steps=" ++ toString r.steps.length

/-- The `for depth in 0..self.reflection_depth` loop of
`ReflectionEngine::deep_reflect`: run a pass, push its result, and break
once a result's final confidence exceeds 0.9.  `qcs` supplies the
quantum-step oracle confidence of each pass, `pass` the index of the
current pass, and the remaining iteration count is the last argument. -/
def deepReflectLoop (qcs : ℕ → ℚ) (pass : ℕ) (query : String)
    (m : ReflectionModel) : ℕ → List ReflectionResult × ReflectionModel
  | 0 => ([], m)
  | d + 1 =>
    let rm := ReflectionEngine.reflect_on_query (qcs pass) query m
    if 9/10 < rm.1.final_confidence then ([rm.1], rm.2)
    else
      ((rm.1 :: (deepReflectLoop qcs (pass + 1) (nextQuery rm.1) rm.2 d).1),
       (deepReflectLoop qcs (pass + 1) (nextQuery rm.1) rm.2 d).2)

/-- `ReflectionEngine::deep_reflect`: up to `reflection_depth` layers,
with `final_depth` the number of layers actually produced. -/
def ReflectionEngine.deep_reflect (qcs : ℕ → ℚ) (reflection_depth : ℕ)
    (query : String) (m : ReflectionModel) :
    DeepReflectionResult × ReflectionModel :=
  let lm := deepReflectLoop qcs 0 query m reflection_depth
  (⟨lm.1, lm.1.length⟩, lm.2)

/-- One mutating call on a `ReflectionModel`, for stating trace
invariants over arbitrary call sequences. -/
inductive ModelOp where
  | addStep (step : ReasoningStep)
  | recordError (label : String)
  | genSuggestions
deriving Repr

/-- Apply one mutating call. -/
def applyOp (m : ReflectionModel) : ModelOp → ReflectionModel
  | ModelOp.addStep s => m.add_step s
  | ModelOp.recordError l => m.record_error l
  | ModelOp.genSuggestions => m.generate_suggestions

/-- Apply a sequence of mutating calls, first to last. -/
def applyOps (m : ReflectionModel) (ops : List ModelOp) : ReflectionModel :=
  ops.foldl applyOp m

/-! Theorems settling the claims. -/

/-- Concrete evaluation: the UTF-8 byte length of the query "hi". -/
theorem byteLength_hi : byteLength "hi" = 2 := by decide

/-- Concrete evaluation: the word count of the query "hi". -/
theorem wordCount_hi : wordCount "hi" = 1 := by decide

/-- Each of the two capped feature entries is at most 1, so the
un-normalized feature sum is at most 5/2. -/
theorem featureVector_sum_le (input : String) :
    (featureVector input).sum ≤ 5/2 := by
  have h1 : min ((byteLength input : ℚ) / 100) 1 ≤ 1 := min_le_right _ _
  have h2 : min ((wordCount input : ℚ) / 20) 1 ≤ 1 := min_le_right _ _
  simp only [featureVector, List.sum_cons, List.sum_nil]
  linarith

/-- C1 counterexample: on the input "hi" the vector returned by
`compute_probabilities` sums to 19/100, not 1, so dividing by the
constant 3.0 does not produce a vector summing to 1. -/
theorem C1_counterexample_hi :
    (QuantumReflector.compute_probabilities "hi").sum = 19/100 ∧
      (19/100 : ℚ) ≠ 1 := by
  constructor
  · simp only [QuantumReflector.compute_probabilities, featureVector,
      byteLength_hi, wordCount_hi, List.map_cons, List.map_nil,
      List.sum_cons, List.sum_nil]
    norm_num
  · norm_num

/-- C1 (amended): `compute_probabilities` divides every entry of the
3-entry feature vector by the constant 3.0 (the vector length), not by
the un-normalized sum of the entries; consequently the result sums to
one third of the un-normalized feature sum, which is at most 5/6 and
never 1. -/
theorem C1_compute_probabilities_divides_by_three (input : String) :
    (QuantumReflector.compute_probabilities input).sum =
        (featureVector input).sum / 3 ∧
      (QuantumReflector.compute_probabilities input).sum ≤ 5/6 ∧
      (QuantumReflector.compute_probabilities input).sum < 1 := by
  have hsum : (QuantumReflector.compute_probabilities input).sum =
      (featureVector input).sum / 3 := by
    simp only [QuantumReflector.compute_probabilities, featureVector,
      List.map_cons, List.map_nil, List.sum_cons, List.sum_nil]
    ring
  have hle := featureVector_sum_le input
  refine ⟨hsum, ?_, ?_⟩ <;> rw [hsum] <;> linarith

/-- Sum of a list mapped through division by a constant. -/
theorem sum_map_div (l : List ℝ) (f : ℝ → ℝ) (c : ℝ) :
    (l.map (fun p => f p / c)).sum = (l.map f).sum / c := by
  induction l with
  | nil => simp
  | cons a t ih => simp [ih, add_div]

/-- C2 counterexample: `anneal` with the non-positive temperature −1 on
the probability vector [0, 0] returns the reweighted vector
[1/2, 1/2]; it does not fail (the Rust method checks nothing and has no
error path at all). -/
theorem C2_counterexample_negative_temperature :
    QuantumSampler.anneal ⟨-1, 100⟩ [(0 : ℝ), 0] = [1/2, 1/2] := by
  simp only [QuantumSampler.anneal, List.map_cons, List.map_nil,
    List.sum_cons, List.sum_nil, zero_div, Real.exp_zero]
  norm_num

/-- C2 (amended): `anneal` performs no temperature validation and never
fails; for every temperature it returns, for each entry p, exp(p/T)
divided by the sum of exp(q/T) over all entries q.  For a positive
temperature and a nonempty input vector this output has the input's
length, sums to 1, and is elementwise positive. -/
theorem C2_anneal_softmax (s : QuantumSampler) (ps : List ℝ)
    (hT : 0 < s.temperature) (hps : ps ≠ []) :
    (s.anneal ps).length = ps.length ∧
      (s.anneal ps).sum = 1 ∧
      ∀ x ∈ s.anneal ps, 0 < x := by
  have hpos : ∀ x ∈ ps.map (fun p => Real.exp (p / s.temperature)), 0 < x := by
    intro x hx
    rcases List.mem_map.mp hx with ⟨p, _, rfl⟩
    exact Real.exp_pos _
  have hsum : 0 < (ps.map (fun p => Real.exp (p / s.temperature))).sum :=
    List.sum_pos _ hpos (by simpa using hps)
  refine ⟨by simp [QuantumSampler.anneal], ?_, ?_⟩
  · rw [QuantumSampler.anneal, sum_map_div]
    exact div_self (ne_of_gt hsum)
  · intro x hx
    rcases List.mem_map.mp hx with ⟨p, _, rfl⟩
    exact div_pos (Real.exp_pos _) hsum

/-- C2 witness: at temperature 1 on the vector [0], `anneal` returns a
vector summing to 1. -/
theorem C2_anneal_softmax_witness :
    (QuantumSampler.anneal ⟨1, 100⟩ [(0 : ℝ)]).sum = 1 :=
  (C2_anneal_softmax ⟨1, 100⟩ [(0 : ℝ)] (by norm_num) (by simp)).2.1

/-- Every single mutating call preserves the lock-step relation between
confidence history and reasoning trace. -/
theorem applyOp_lockstep (m : ReflectionModel) (op : ModelOp)
    (h : m.confidence_history.length = m.reasoning_trace.length) :
    (applyOp m op).confidence_history.length =
      (applyOp m op).reasoning_trace.length := by
  cases op <;>
    simp [applyOp, ReflectionModel.add_step, ReflectionModel.record_error,
      ReflectionModel.generate_suggestions, h]

/-- The lock-step relation is preserved by any sequence of calls. -/
theorem applyOps_lockstep (ops : List ModelOp) :
    ∀ m : ReflectionModel,
      m.confidence_history.length = m.reasoning_trace.length →
      (applyOps m ops).confidence_history.length =
        (applyOps m ops).reasoning_trace.length := by
  induction ops with
  | nil => intro m h; exact h
  | cons op rest ih =>
    intro m h
    simpa [applyOps] using ih (applyOp m op) (applyOp_lockstep m op h)

/-- C3: after any sequence of add_step / record_error /
generate_suggestions calls starting from a freshly created
ReflectionModel, the confidence history and the reasoning trace have
the same length (this holds after every call, since the sequence is
arbitrary). -/
theorem C3_confidence_history_lockstep (id : ℕ) (ops : List ModelOp) :
    (applyOps (ReflectionModel.new id) ops).confidence_history.length =
      (applyOps (ReflectionModel.new id) ops).reasoning_trace.length :=
  applyOps_lockstep ops (ReflectionModel.new id) rfl

/-- C10: each ReflectionModel mutator touches only its own fields:
record_error leaves trace, history and suggestions unchanged;
generate_suggestions leaves trace, history and error patterns
unchanged; add_step leaves error patterns and suggestions unchanged;
and all three leave the model identifier unchanged. -/
theorem C10_mutator_frames (m : ReflectionModel) (label : String)
    (step : ReasoningStep) :
    (m.record_error label).reasoning_trace = m.reasoning_trace ∧
      (m.record_error label).confidence_history = m.confidence_history ∧
      (m.record_error label).improvement_suggestions =
        m.improvement_suggestions ∧
      m.generate_suggestions.reasoning_trace = m.reasoning_trace ∧
      m.generate_suggestions.confidence_history = m.confidence_history ∧
      m.generate_suggestions.error_patterns = m.error_patterns ∧
      (m.add_step step).error_patterns = m.error_patterns ∧
      (m.add_step step).improvement_suggestions = m.improvement_suggestions ∧
      (m.record_error label).id = m.id ∧
      m.generate_suggestions.id = m.id ∧
      (m.add_step step).id = m.id :=
  ⟨rfl, rfl, rfl, rfl, rfl, rfl, rfl, rfl, rfl, rfl, rfl⟩

/-- A selected index is a valid position in the probability vector. -/
theorem selectIndexAux_lt_length (r : ℚ) :
    ∀ (ps : List ℚ) (c : ℚ) (i : ℕ),
      selectIndexAux r c ps = some i → i < ps.length := by
  intro ps
  induction ps with
  | nil => intro c i h; simp [selectIndexAux] at h
  | cons p t ih =>
    intro c i h
    rw [selectIndexAux] at h
    by_cases hle : r ≤ c + p
    · rw [if_pos hle] at h
      cases h
      simp
    · rw [if_neg hle] at h
      rcases Option.map_eq_some.mp h with ⟨j, hj, rfl⟩
      have := ih (c + p) j hj
      simpa using Nat.succ_lt_succ this

/-- When the draw exceeds the running total of a nonnegative vector, no
prefix sum ever reaches it and no index is selected. -/
theorem selectIndexAux_none_of_gt (r : ℚ) :
    ∀ (ps : List ℚ) (c : ℚ), (∀ p ∈ ps, 0 ≤ p) → c + ps.sum < r →
      selectIndexAux r c ps = none := by
  intro ps
  induction ps with
  | nil => intro c _ _; rfl
  | cons p t ih =>
    intro c hnn hlt
    have htnn : ∀ q ∈ t, 0 ≤ q := fun q hq => hnn q (List.mem_cons_of_mem _ hq)
    have htsum : 0 ≤ t.sum := List.sum_nonneg htnn
    have hsum : c + (p :: t).sum = (c + p) + t.sum := by
      simp [List.sum_cons]; ring
    rw [hsum] at hlt
    have hcp : ¬ r ≤ c + p := by linarith
    rw [selectIndexAux, if_neg hcp, ih (c + p) htnn hlt]
    rfl

/-- C6: `sample` returns at most as many indices as there are draws,
every returned index is a valid position in the probability vector
(whether or not that vector sums to 1), and a draw whose random value
exceeds the total accumulated mass of a nonnegative vector selects no
index and contributes nothing to the output. -/
theorem C6_sample_safe (draws probabilities : List ℚ) :
    (QuantumSampler.sample draws probabilities).length ≤ draws.length ∧
      (∀ idx ∈ QuantumSampler.sample draws probabilities,
        idx < probabilities.length) ∧
      (∀ r : ℚ, (∀ p ∈ probabilities, 0 ≤ p) → probabilities.sum < r →
        selectIndexAux r 0 probabilities = none ∧
          QuantumSampler.sample [r] probabilities = []) := by
  refine ⟨List.length_filterMap_le _ _, ?_, ?_⟩
  · intro idx hidx
    rcases List.mem_filterMap.mp hidx with ⟨r, _, hr⟩
    exact selectIndexAux_lt_length r probabilities 0 idx hr
  · intro r hnn hlt
    have hz : (0 : ℚ) + probabilities.sum < r := by simpa using hlt
    have hnone := selectIndexAux_none_of_gt r probabilities 0 hnn hz
    exact ⟨hnone, by simp [QuantumSampler.sample, hnone]⟩

/-- A list is pairwise-related when the relation only constrains the
later element and every element satisfies that constraint. -/
theorem pairwise_of_mem_right {α : Type} {R : α → α → Prop} {l : List α}
    (h : ∀ b ∈ l, ∀ a, R a b) : l.Pairwise R := by
  induction l with
  | nil => exact List.Pairwise.nil
  | cons x t ih =>
    refine List.Pairwise.cons ?_ (ih fun b hb a => h b (List.mem_cons_of_mem _ hb) a)
    intro b hb
    exact h b (List.mem_cons_of_mem _ hb) x

/-- Every suggestion in the error-pattern block of
`generate_suggestions` is a FixRecurringError suggestion. -/
theorem mem_errSuggestions_type (m : ReflectionModel) (s : Suggestion)
    (hs : s ∈ (m.error_patterns.filter (fun e => 3 < e.2)).map
      (fun e => fixRecurringErrorSuggestion e.1 e.2)) :
    s.suggestion_type = SuggestionType.FixRecurringError ∧
      s.priority = 9/10 := by
  rcases List.mem_map.mp hs with ⟨e, _, rfl⟩
  exact ⟨rfl, rfl⟩

/-- C7: after `generate_suggestions`, the resulting list is a pure
function of history and error patterns (the previous suggestion list is
cleared); it holds an IncreaseConfidence suggestion of priority 0.8 iff
the history has at least 3 entries whose 3 most recent average below
0.6; it holds one FixRecurringError suggestion of priority 0.9 per
error label with count above 3; and no FixRecurringError suggestion
precedes an IncreaseConfidence suggestion. -/
theorem C7_generate_suggestions_spec (m : ReflectionModel) :
    ((∃ s ∈ m.generate_suggestions.improvement_suggestions,
        s.suggestion_type = SuggestionType.IncreaseConfidence ∧
          s.priority = 8/10) ↔
      (3 ≤ m.confidence_history.length ∧
        recentAvg m.confidence_history < 6/10)) ∧
      ((m.generate_suggestions.improvement_suggestions.filter
          (fun s => s.suggestion_type == SuggestionType.FixRecurringError)).length =
        (m.error_patterns.filter (fun e => 3 < e.2)).length) ∧
      (∀ e ∈ m.error_patterns, 3 < e.2 →
        fixRecurringErrorSuggestion e.1 e.2 ∈
          m.generate_suggestions.improvement_suggestions) ∧
      (∀ s ∈ m.generate_suggestions.improvement_suggestions,
        s.suggestion_type = SuggestionType.FixRecurringError →
          s.priority = 9/10) ∧
      (m.generate_suggestions.improvement_suggestions.Pairwise
        (fun a b => ¬(a.suggestion_type = SuggestionType.FixRecurringError ∧
          b.suggestion_type = SuggestionType.IncreaseConfidence))) ∧
      (∀ xs : List Suggestion,
        (ReflectionModel.generate_suggestions
            { m with improvement_suggestions := xs }) =
          m.generate_suggestions) := by
  have hlist : m.generate_suggestions.improvement_suggestions =
      (if 3 ≤ m.confidence_history.length ∧
          recentAvg m.confidence_history < 6/10
        then [increaseConfidenceSuggestion] else []) ++
        (m.error_patterns.filter (fun e => 3 < e.2)).map
          (fun e => fixRecurringErrorSuggestion e.1 e.2) := rfl
  refine ⟨?_, ?_, ?_, ?_, ?_, fun xs => rfl⟩
  · constructor
    · rintro ⟨s, hs, htype, _⟩
      rw [hlist] at hs
      rcases List.mem_append.mp hs with hs | hs
      · by_contra hcond
        rw [if_neg hcond] at hs
        simp at hs
      · have := (mem_errSuggestions_type m s hs).1
        rw [htype] at this
        exact absurd this (by simp)
    · intro hcond
      refine ⟨increaseConfidenceSuggestion, ?_, rfl, rfl⟩
      rw [hlist, if_pos hcond]
      simp
  · rw [hlist]
    rw [List.filter_append, List.length_append]
    have h1 : ((if 3 ≤ m.confidence_history.length ∧
        recentAvg m.confidence_history < 6/10
      then [increaseConfidenceSuggestion] else []).filter
        (fun s => s.suggestion_type == SuggestionType.FixRecurringError)) = [] := by
      split
      · simp [increaseConfidenceSuggestion]
      · rfl
    rw [h1]
    simp only [List.length_nil, Nat.zero_add]
    rw [List.filter_map]
    have h2 : ((m.error_patterns.filter (fun e => 3 < e.2)).filter
        ((fun s : Suggestion =>
            s.suggestion_type == SuggestionType.FixRecurringError) ∘
          (fun e => fixRecurringErrorSuggestion e.1 e.2))) =
        m.error_patterns.filter (fun e => 3 < e.2) := by
      apply List.filter_eq_self.mpr
      intro e _
      rfl
    rw [h2, List.length_map]
  · intro e he hgt
    rw [hlist]
    refine List.mem_append.mpr (Or.inr ?_)
    exact List.mem_map.mpr ⟨e, List.mem_filter.mpr ⟨he, by simpa using hgt⟩, rfl⟩
  · intro s hs htype
    rw [hlist] at hs
    rcases List.mem_append.mp hs with hs | hs
    · by_cases hcond : 3 ≤ m.confidence_history.length ∧
          recentAvg m.confidence_history < 6/10
      · rw [if_pos hcond] at hs
        have : s = increaseConfidenceSuggestion := by simpa using hs
        rw [this] at htype
        exact absurd htype (by simp [increaseConfidenceSuggestion])
      · rw [if_neg hcond] at hs
        simp at hs
    · exact (mem_errSuggestions_type m s hs).2
  · rw [hlist]
    refine List.pairwise_append.mpr ⟨?_, ?_, ?_⟩
    · split
      · exact List.pairwise_singleton _ _
      · exact List.Pairwise.nil
    · refine pairwise_of_mem_right ?_
      intro b hb a
      have := (mem_errSuggestions_type m b hb).1
      rintro ⟨_, hbInc⟩
      rw [hbInc] at this
      exact absurd this (by simp)
    · intro a ha b hb
      rintro ⟨haFix, _⟩
      have haInc : a = increaseConfidenceSuggestion := by
        by_cases hcond : 3 ≤ m.confidence_history.length ∧
            recentAvg m.confidence_history < 6/10
        · rw [if_pos hcond] at ha; simpa using ha
        · rw [if_neg hcond] at ha; simp at ha
      rw [haInc] at haFix
      exact absurd haFix (by simp [increaseConfidenceSuggestion])

/-- C8: `validate_reflection` is valid exactly when its error list is
empty, an error is recorded exactly when the mean confidence (0 for an
empty history) is below the configurable minimum, and review is
required exactly when a warning was recorded (error rate above maximum,
or trace shorter than the minimum step count) or the mean confidence is
below the fixed literal 0.7 — independently of the configurable
min_average_confidence rule. -/
theorem C8_validate_reflection_spec (rules : ReflectionRules)
    (m : ReflectionModel) :
    ((ReflectionGovernance.validate_reflection rules m).valid = true ↔
        (ReflectionGovernance.validate_reflection rules m).errors = []) ∧
      ((ReflectionGovernance.validate_reflection rules m).errors = [] ↔
        ¬ avgConfidence m < rules.min_average_confidence) ∧
      ((ReflectionGovernance.validate_reflection rules m).requires_review =
          true ↔
        (errorRate m > rules.max_error_rate ∨
          m.reasoning_trace.length < rules.min_reasoning_steps ∨
          avgConfidence m < 7/10)) ∧
      (∀ q : ℚ,
        (ReflectionGovernance.validate_reflection
            { rules with min_average_confidence := q } m).requires_review =
          (ReflectionGovernance.validate_reflection rules m).requires_review) := by
  refine ⟨?_, ?_, ?_, fun q => rfl⟩
  · simp only [ReflectionGovernance.validate_reflection]
    split <;> simp
  · simp only [ReflectionGovernance.validate_reflection]
    split <;> rename_i h <;> simp [h]
  · simp only [ReflectionGovernance.validate_reflection]
    by_cases h1 : errorRate m > rules.max_error_rate <;>
      by_cases h2 : m.reasoning_trace.length < rules.min_reasoning_steps <;>
        simp [h1, h2]

/-- C9: `check_quality` computes error, completeness and overall scores
by the stated formulas with `meets_standards` comparing the overall
quality to the configured minimum; on a model with zero steps, zero
recorded errors and no confidence history the scores are 1, 0 and 0 and
the overall quality is 1/3. -/
theorem C9_check_quality_spec (rules : ReflectionRules)
    (m : ReflectionModel) (hmin : 0 < rules.min_reasoning_steps) :
    (ReflectionGovernance.check_quality rules m).confidence_score =
        avgConfidence m ∧
      (ReflectionGovernance.check_quality rules m).error_score =
        1 - (totalErrors m : ℚ) / ((m.reasoning_trace.length : ℚ) + 1) ∧
      (ReflectionGovernance.check_quality rules m).completeness_score =
        min ((m.reasoning_trace.length : ℚ) /
          (rules.min_reasoning_steps : ℚ)) 1 ∧
      (ReflectionGovernance.check_quality rules m).overall_quality =
        ((ReflectionGovernance.check_quality rules m).confidence_score +
          (ReflectionGovernance.check_quality rules m).error_score +
          (ReflectionGovernance.check_quality rules m).completeness_score) / 3 ∧
      ((ReflectionGovernance.check_quality rules m).meets_standards = true ↔
        rules.min_quality_score ≤
          (ReflectionGovernance.check_quality rules m).overall_quality) ∧
      (m.reasoning_trace = [] → m.confidence_history = [] →
        m.error_patterns = [] →
        (ReflectionGovernance.check_quality rules m).error_score = 1 ∧
          (ReflectionGovernance.check_quality rules m).completeness_score = 0 ∧
          (ReflectionGovernance.check_quality rules m).confidence_score = 0 ∧
          (ReflectionGovernance.check_quality rules m).overall_quality = 1/3) := by
  refine ⟨rfl, rfl, rfl, rfl, ?_, ?_⟩
  · simp [ReflectionGovernance.check_quality, ge_iff_le]
  · intro htrace hhist herr
    have hscores :
        (ReflectionGovernance.check_quality rules m).error_score = 1 ∧
          (ReflectionGovernance.check_quality rules m).completeness_score = 0 ∧
          (ReflectionGovernance.check_quality rules m).confidence_score = 0 := by
      refine ⟨?_, ?_, ?_⟩ <;>
        simp [ReflectionGovernance.check_quality, ReflectionModel.get_insights,
          htrace, hhist, herr]
    refine ⟨hscores.1, hscores.2.1, hscores.2.2, ?_⟩
    have hoverall :
        (ReflectionGovernance.check_quality rules m).overall_quality =
          ((ReflectionGovernance.check_quality rules m).confidence_score +
            (ReflectionGovernance.check_quality rules m).error_score +
            (ReflectionGovernance.check_quality rules m).completeness_score) / 3 :=
      rfl
    rw [hoverall, hscores.1, hscores.2.1, hscores.2.2]
    norm_num

/-- C9 witness: with the default rules (minimum 3 reasoning steps) on a
fresh model, the overall quality is 1/3. -/
theorem C9_check_quality_witness :
    (ReflectionGovernance.check_quality ReflectionRules.default
      (ReflectionModel.new 0)).overall_quality = 1/3 :=
  ((C9_check_quality_spec ReflectionRules.default (ReflectionModel.new 0)
      (by decide)).2.2.2.2.2 rfl rfl rfl).2.2.2

/-- C4: a reflection pass always succeeds and returns exactly 3 steps;
its final confidence is the third (meta) step's confidence, which is
the mean of the confidences of the two preceding steps; the first
(complexity) step's confidence is 1 − 0.3·min(1, word_count/50), and
for the one-word query "hi" it is 0.994.  The quantum step's
nondeterministic confidence `qc` is arbitrary. -/
theorem C4_reflect_on_query_spec (qc : ℚ) (query : String)
    (m : ReflectionModel) :
    (ReflectionEngine.reflect_on_query qc query m).1.steps.length = 3 ∧
      (ReflectionEngine.reflect_on_query qc query m).1.final_confidence =
        (((ReflectionEngine.reflect_on_query qc query m).1.steps.getD 2
          default).confidence) ∧
      (((ReflectionEngine.reflect_on_query qc query m).1.steps.getD 2
          default).confidence) =
        ((((ReflectionEngine.reflect_on_query qc query m).1.steps.getD 0
            default).confidence) +
          (((ReflectionEngine.reflect_on_query qc query m).1.steps.getD 1
            default).confidence)) / 2 ∧
      (((ReflectionEngine.reflect_on_query qc query m).1.steps.getD 0
          default).confidence) =
        1 - min ((wordCount query : ℚ) / 50) 1 * (3/10) ∧
      (((ReflectionEngine.reflect_on_query qc "hi" m).1.steps.getD 0
          default).confidence) = 994/1000 := by
  refine ⟨rfl, rfl, ?_, rfl, ?_⟩
  · simp [ReflectionEngine.reflect_on_query, ReflectionEngine.meta_reason,
      ReasoningStep.new, List.getD]
  · simp only [ReflectionEngine.reflect_on_query,
      ReflectionEngine.analyze_complexity, ReasoningStep.new, wordCount_hi,
      List.getD]
    norm_num

/-- Structural properties of the `deep_reflect` loop, by induction on
the remaining iteration count: at most that many layers are produced,
every layer except possibly the last has confidence at most 0.9, and
when fewer layers than allowed are produced the last layer's confidence
exceeds 0.9. -/
theorem deepReflectLoop_spec (qcs : ℕ → ℚ) :
    ∀ (d pass : ℕ) (query : String) (m : ReflectionModel),
      (deepReflectLoop qcs pass query m d).1.length ≤ d ∧
      (∀ i, i + 1 < (deepReflectLoop qcs pass query m d).1.length →
        ((deepReflectLoop qcs pass query m d).1.getD i
          default).final_confidence ≤ 9/10) ∧
      ((deepReflectLoop qcs pass query m d).1.length < d →
        ∃ c, (deepReflectLoop qcs pass query m d).1.getLast? = some c ∧
          9/10 < c.final_confidence) := by
  intro d
  induction d with
  | zero =>
    intro pass query m
    refine ⟨Nat.le_refl 0, ?_, ?_⟩ <;> simp [deepReflectLoop]
  | succ d ih =>
    intro pass query m
    by_cases h : 9/10 <
        (ReflectionEngine.reflect_on_query (qcs pass) query m).1.final_confidence
    · refine ⟨?_, ?_, ?_⟩ <;> simp only [deepReflectLoop, if_pos h]
      · simp
      · intro i hi
        exact absurd hi (by simp)
      · intro _
        exact ⟨(ReflectionEngine.reflect_on_query (qcs pass) query m).1,
          rfl, h⟩
    · obtain ⟨ih1, ih2, ih3⟩ :=
        ih (pass + 1)
          (nextQuery (ReflectionEngine.reflect_on_query (qcs pass) query m).1)
          (ReflectionEngine.reflect_on_query (qcs pass) query m).2
      refine ⟨?_, ?_, ?_⟩ <;> simp only [deepReflectLoop, if_neg h]
      · simpa using Nat.succ_le_succ ih1
      · intro i hi
        match i with
        | 0 => simpa using le_of_not_lt h
        | i + 1 =>
          simp only [List.getD_cons_succ]
          exact ih2 i (by simpa using hi)
      · intro hlen
        obtain ⟨c, hlast, hc⟩ := ih3 (by simpa using hlen)
        rcases hrest : (deepReflectLoop qcs (pass + 1)
            (nextQuery (ReflectionEngine.reflect_on_query (qcs pass) query m).1)
            (ReflectionEngine.reflect_on_query (qcs pass) query m).2 d).1 with
          _ | ⟨b, t⟩
        · rw [hrest] at hlast
          simp at hlast
        · rw [hrest] at hlast
          exact ⟨c, by rw [List.getLast?_cons_cons, hlast], hc⟩

/-- C5: `deep_reflect` produces at most `reflection_depth` layers;
`final_depth` equals the number of layers returned; every layer other
than the last has final confidence at most 0.9 (so no layer runs after
the first one exceeding 0.9, and that layer is included as the last);
and when the loop stops before exhausting the depth, the last layer's
final confidence exceeds 0.9. -/
theorem C5_deep_reflect_spec (qcs : ℕ → ℚ) (depth : ℕ) (query : String)
    (m : ReflectionModel) :
    (ReflectionEngine.deep_reflect qcs depth query m).1.layers.length ≤
        depth ∧
      (ReflectionEngine.deep_reflect qcs depth query m).1.final_depth =
        (ReflectionEngine.deep_reflect qcs depth query m).1.layers.length ∧
      (∀ i, i + 1 <
          (ReflectionEngine.deep_reflect qcs depth query m).1.layers.length →
        ((ReflectionEngine.deep_reflect qcs depth query m).1.layers.getD i
          default).final_confidence ≤ 9/10) ∧
      ((ReflectionEngine.deep_reflect qcs depth query m).1.layers.length <
          depth →
        ∃ c, (ReflectionEngine.deep_reflect
              qcs depth query m).1.layers.getLast? = some c ∧
          9/10 < c.final_confidence) :=
  ⟨(deepReflectLoop_spec qcs depth 0 query m).1, rfl,
    (deepReflectLoop_spec qcs depth 0 query m).2.1,
    (deepReflectLoop_spec qcs depth 0 query m).2.2⟩

end SpecProof
